import Mathlib

/-!
Verification development for the town_meetings agentic task-execution core.

The Python source is shallowly embedded: pure logic is translated into
executable Lean functions; external effects (executing an untrusted snippet,
the reasoning-service round trips, the file system) are made explicit as
data passed to those functions.  Machine behaviour that Python leaves
implicit (dict insertion order, truthiness, exception messages) is modelled
where the translated code depends on it.
-/

/-- Python/JSON values as they appear in the harness: `PyVal.none` is Python
`None`; lists and dicts are the JSON collections exchanged between the tools
(`json.load`, function outputs, DeepDiff operands). JSON numbers that occur
in this code base are dates/URLs encoded as strings or integers, so numbers
are modelled by `Int`. -/
inductive PyVal : Type
  | none : PyVal
  | bool (b : Bool) : PyVal
  | int (n : Int) : PyVal
  | str (s : String) : PyVal
  | list (xs : List PyVal) : PyVal
  | dict (kvs : List (String × PyVal)) : PyVal

/- Total structural comparison on `PyVal`, used only to normalise unordered
collections when modelling `DeepDiff(..., ignore_order=True)`. -/
mutual

def pyCmp : PyVal → PyVal → Ordering
  | PyVal.none, PyVal.none => Ordering.eq
  | PyVal.none, _ => Ordering.lt
  | _, PyVal.none => Ordering.gt
  | PyVal.bool a, PyVal.bool b => compare a b
  | PyVal.bool _, _ => Ordering.lt
  | _, PyVal.bool _ => Ordering.gt
  | PyVal.int a, PyVal.int b => compare a b
  | PyVal.int _, _ => Ordering.lt
  | _, PyVal.int _ => Ordering.gt
  | PyVal.str a, PyVal.str b => compare a b
  | PyVal.str _, _ => Ordering.lt
  | _, PyVal.str _ => Ordering.gt
  | PyVal.list a, PyVal.list b => pyCmpList a b
  | PyVal.list _, _ => Ordering.lt
  | _, PyVal.list _ => Ordering.gt
  | PyVal.dict a, PyVal.dict b => pyCmpDict a b

def pyCmpList : List PyVal → List PyVal → Ordering
  | [], [] => Ordering.eq
  | [], _ :: _ => Ordering.lt
  | _ :: _, [] => Ordering.gt
  | x :: xs, y :: ys =>
    match pyCmp x y with
    | Ordering.eq => pyCmpList xs ys
    | o => o

def pyCmpDict : List (String × PyVal) → List (String × PyVal) → Ordering
  | [], [] => Ordering.eq
  | [], _ :: _ => Ordering.lt
  | _ :: _, [] => Ordering.gt
  | (k1, v1) :: xs, (k2, v2) :: ys =>
    match compare k1 k2 with
    | Ordering.eq =>
      match pyCmp v1 v2 with
      | Ordering.eq => pyCmpDict xs ys
      | o => o
    | o => o

end

def ordIsEq : Ordering → Bool
  | Ordering.eq => true
  | _ => false

def pyLe (a b : PyVal) : Bool :=
  match pyCmp a b with
  | Ordering.gt => false
  | _ => true

def insertSorted (x : PyVal) : List PyVal → List PyVal
  | [] => [x]
  | y :: ys => if pyLe x y then x :: y :: ys else y :: insertSorted x ys

def sortVals : List PyVal → List PyVal
  | [] => []
  | x :: xs => insertSorted x (sortVals xs)

def keyLe (a b : String × PyVal) : Bool :=
  match compare a.1 b.1 with
  | Ordering.gt => false
  | _ => true

def insertSortedKV (x : String × PyVal) : List (String × PyVal) → List (String × PyVal)
  | [] => [x]
  | y :: ys => if keyLe x y then x :: y :: ys else y :: insertSortedKV x ys

def sortKVs : List (String × PyVal) → List (String × PyVal)
  | [] => []
  | x :: xs => insertSortedKV x (sortKVs xs)

/- Boolean structural equality on `PyVal` (Python `==` on JSON values),
used to drop repeated list elements when normalising. -/
mutual

def pyEqb : PyVal → PyVal → Bool
  | PyVal.none, PyVal.none => true
  | PyVal.bool a, PyVal.bool b => a == b
  | PyVal.int a, PyVal.int b => a == b
  | PyVal.str a, PyVal.str b => a == b
  | PyVal.list a, PyVal.list b => pyEqbList a b
  | PyVal.dict a, PyVal.dict b => pyEqbDict a b
  | _, _ => false

def pyEqbList : List PyVal → List PyVal → Bool
  | [], [] => true
  | x :: xs, y :: ys => pyEqb x y && pyEqbList xs ys
  | _, _ => false

def pyEqbDict : List (String × PyVal) → List (String × PyVal) → Bool
  | [], [] => true
  | (k1, v1) :: xs, (k2, v2) :: ys => (k1 == k2) && pyEqb v1 v2 && pyEqbDict xs ys
  | _, _ => false

end

/-- Removes adjacent structurally-equal elements of a sorted list, so the
list is reduced to the set of its members: `deepdiff` with `ignore_order`
and its default `report_repetition=False` compares the sets of item hashes
of two iterables and ignores repetition counts, so a normal form for its
empty-diff relation must ignore duplicates as well as order. -/
def dedupAdj : List PyVal → List PyVal
  | [] => []
  | [x] => [x]
  | x :: y :: rest =>
    if pyEqb x y then dedupAdj (y :: rest) else x :: dedupAdj (y :: rest)

/- Normal form under `ignore_order` (default `report_repetition=False`):
lists are sorted and duplicates dropped (set-of-members view) and dict
entries are sorted by key (Python dicts compare key-wise). -/
mutual

def pyNormalize : PyVal → PyVal
  | PyVal.none => PyVal.none
  | PyVal.bool b => PyVal.bool b
  | PyVal.int n => PyVal.int n
  | PyVal.str s => PyVal.str s
  | PyVal.list xs => PyVal.list (dedupAdj (sortVals (pyNormalizeList xs)))
  | PyVal.dict kvs => PyVal.dict (sortKVs (pyNormalizeDict kvs))

def pyNormalizeList : List PyVal → List PyVal
  | [] => []
  | x :: xs => pyNormalize x :: pyNormalizeList xs

def pyNormalizeDict : List (String × PyVal) → List (String × PyVal)
  | [] => []
  | (k, v) :: kvs => (k, pyNormalize v) :: pyNormalizeDict kvs

end

/-- Model of `DeepDiff(a, b, ignore_order=True)` being empty: the two values
are structurally equal up to reordering and repetition of (possibly nested)
list elements — deepdiff's `ignore_order` with its default
`report_repetition=False` reports the set differences of the items' hashes
(`hashes_added`/`hashes_removed`), so duplicate-count-only differences such
as `[rec, rec]` versus `[rec]` produce an empty diff. -/
def deepDiffIsEmpty (a b : PyVal) : Bool :=
  ordIsEq (pyCmp (pyNormalize a) (pyNormalize b))

/-- Python truthiness of the values this code base feeds to `if not x:`. -/
def isTruthy : PyVal → Bool
  | PyVal.none => false
  | PyVal.bool b => b
  | PyVal.int n => decide (n ≠ 0)
  | PyVal.str s => decide (s.length ≠ 0)
  | PyVal.list xs => decide (xs.length ≠ 0)
  | PyVal.dict kvs => decide (kvs.length ≠ 0)

/-- The return dict of `run_test_case` (src/tools/iterate_strategy.py, lines
126-132). `diffEmpty` models the truthiness of the returned `diff` value
(`true` iff the dict returned for `diff` is `{}`); `actual_output` is the
Python variable `output`, with Python `None` represented as `PyVal.none`. -/
structure ValidationResult : Type where
  passed : Bool
  logs : String
  exception : Option String
  diffEmpty : Bool
  actual_output : PyVal

/-- The data `run_test_case` observes about one untrusted code snippet
together with the supplied keyword arguments (`values`).  Executing
arbitrary Python is external to the harness, so its observable behaviour is
made explicit:
  * `parseError`: result of `ast.parse(code)` — `some e` means a
    `SyntaxError` with message `e` was raised;
  * `execError`: an exception trace raised by `exec(code, namespace)` at
    module level, if any;
  * `funcs`: the values of `namespace` that are `types.FunctionType`, in
    dict insertion order; each carries the outcome of calling it with the
    supplied `values` as keyword arguments (`Except.error` = raised, the
    string being the `traceback.format_exc()` trace, modelled by its final
    exception line; `Except.ok` = returned value);
  * `logs`: what the `stdout` capture holds after step 2. -/
structure PySnippet : Type where
  parseError : Option String
  execError : Option String
  funcs : List (Except String PyVal)
  logs : String

/-- Trace line modelling the `RuntimeError("No function found in code
snippet")` raised at src/tools/iterate_strategy.py line 114. -/
def noFunctionMsg : String := "RuntimeError: No function found in code snippet"

/-- Shallow embedding of `run_test_case` (src/tools/iterate_strategy.py,
lines 82-132).  Step 1 returns on a parse failure; step 2 executes the
snippet, takes the first function in the namespace (`next(...)`), and calls
it, capturing any exception; step 3 sets `diff = {}` when `output is None`
and otherwise compares with `DeepDiff(output, expected, ignore_order=True)`;
`passed = not bool(diff) and exc is None`. -/
def runTestCase (s : PySnippet) (expected : PyVal) : ValidationResult :=
  match s.parseError with
  | some e =>
    { passed := false, logs := "", exception := some ("SyntaxError: " ++ e),
      diffEmpty := true, actual_output := PyVal.none }
  | Option.none =>
    let step2 : PyVal × Option String :=
      match s.execError with
      | some tr => (PyVal.none, some tr)
      | Option.none =>
        match s.funcs with
        | [] => (PyVal.none, some noFunctionMsg)
        | f :: _ =>
          match f with
          | Except.error tr => (PyVal.none, some tr)
          | Except.ok v => (v, Option.none)
    let dEmpty : Bool :=
      match step2.1 with
      | PyVal.none => true
      | v => deepDiffIsEmpty v expected
    { passed := dEmpty && step2.2.isNone, logs := s.logs,
      exception := step2.2, diffEmpty := dEmpty, actual_output := step2.1 }

/-- Python `name.replace(" ", "_").lower()` on the committee name, as used
for fixture file names in both tools. -/
def sanitizeName (s : String) : String :=
  String.mk (s.data.map (fun c => (if c = ' ' then '_' else c).toLower))

/-- File path written by `StoreExpectedAgendas.execute`
(src/tools/store_expected_agenda.py, lines 50-52). -/
def storePath (name : String) : String :=
  "strategies/expected/" ++ sanitizeName name ++ ".json"

/-- File path read by `TestProposedStrategyTool.execute`
(src/tools/iterate_strategy.py, lines 68-71). -/
def testFixturePath (committee : String) : String :=
  "strategies/fixtures/expected/" ++ sanitizeName committee ++ ".json"

/-- Assoc-list model of a directory of JSON files: path → parsed content.
`assocInsert` is `open(path, "w")` overwrite semantics. -/
def assocInsert {α : Type} (l : List (String × α)) (k : String) (v : α) :
    List (String × α) :=
  match l with
  | [] => [(k, v)]
  | (k', v') :: rest =>
    if k' = k then (k, v) :: rest else (k', v') :: assocInsert rest k v

def assocLookup {α : Type} (l : List (String × α)) (k : String) : Option α :=
  match l with
  | [] => Option.none
  | (k', v') :: rest => if k' = k then some v' else assocLookup rest k

/-- Shallow embedding of `StoreExpectedAgendas.execute`
(src/tools/store_expected_agenda.py, lines 45-55): `json.dump` the meeting
list to the store path for the committee name. -/
def storeExpectedAgendas (fs : List (String × PyVal)) (name : String)
    (meetings : PyVal) : List (String × PyVal) :=
  assocInsert fs (storePath name) meetings

/-- Message of the `UnboundLocalError` Python raises at
src/tools/iterate_strategy.py line 76 when the fixture file does not exist
(`expected_output` was never assigned). -/
def unboundLocalMsg : String :=
  "UnboundLocalError: cannot access local variable 'expected_output' where it is not associated with a value"

/-- Message of the `Exception` raised at src/tools/iterate_strategy.py
line 77 when the fixture content is falsy. -/
def noExpectedMsg (committee : String) : String :=
  "No expected output found at " ++ testFixturePath committee

/-- Shallow embedding of `TestProposedStrategyTool.execute`
(src/tools/iterate_strategy.py, lines 63-79): read the fixture file for the
committee from `strategies/fixtures/expected`; a missing file leaves
`expected_output` unbound (`UnboundLocalError`), falsy content raises, and
otherwise the harness runs on the snippet with the fixture as expected
output. `Except.error` models an exception escaping `execute`. -/
def testProposedStrategyExecute (fs : List (String × PyVal))
    (committee : String) (s : PySnippet) : Except String ValidationResult :=
  match assocLookup fs (testFixturePath committee) with
  | Option.none => Except.error unboundLocalMsg
  | some v =>
    if isTruthy v then Except.ok (runTestCase s v)
    else Except.error (noExpectedMsg committee)

/-- One block of a service message: free text or a tool-use block
carrying call id, capability name and input payload. -/
inductive ContentItem : Type
  | text (s : String) : ContentItem
  | toolUse (id name : String) (input : PyVal) : ContentItem

/-- A reasoning-service response message (its content blocks). -/
structure Message : Type where
  content : List ContentItem

/-- A transcript turn as appended by `TaskHandler.handle_tool_calls`
(src/task_handler.py, lines 141-153): the assistant turn replays the
service message content; the following user turn holds one `tool_result`
block with the triggering `tool_use_id` and the JSON-dumped result. -/
inductive Turn : Type
  | assistantTurn (content : List ContentItem) : Turn
  | toolResultTurn (toolUseId : String) (result : PyVal) : Turn

/-- A capability as the engine sees it (src/tools/__init__.py, `Tool`):
its registry name, the `is_structured_output` flag, and the observable
behaviour of `execute` on an input payload (modelled as a pure function;
the engine JSON-dumps its result into the tool-result turn). -/
structure ToolSpec : Type where
  name : String
  isStructuredOutput : Bool
  run : PyVal → PyVal

/-- Lookup in the engine's name-keyed tool table (`self.tools`,
src/task_handler.py line 38; membership test `tool_name in self.tools`,
line 132). -/
def lookupTool (tools : List ToolSpec) (n : String) : Option ToolSpec :=
  tools.find? (fun t => t.name == n)

/-- The loop of `handle_tool_calls` scans the content blocks in order and
acts on the first `tool_use` whose name is in the tool table; tool-use
blocks with unknown names are skipped (src/task_handler.py, lines 123-174). -/
def firstKnownToolUse (tools : List ToolSpec) :
    List ContentItem → Option (String × ToolSpec × PyVal)
  | [] => Option.none
  | ContentItem.text _ :: rest => firstKnownToolUse tools rest
  | ContentItem.toolUse id n inp :: rest =>
    match lookupTool tools n with
    | some t => some (id, t, inp)
    | Option.none => firstKnownToolUse tools rest

/-- `tool_call_found` after a full scan of the content: some block is a
`tool_use` (src/task_handler.py, lines 120-125). -/
def hasToolUse : List ContentItem → Bool
  | [] => false
  | ContentItem.text _ :: rest => hasToolUse rest
  | ContentItem.toolUse _ _ _ :: _ => true

/-- The text blocks of a message content, in order. -/
def textBlocks : List ContentItem → List String
  | [] => []
  | ContentItem.text s :: rest => s :: textBlocks rest
  | ContentItem.toolUse _ _ _ :: rest => textBlocks rest

/-- `" ".join(item.text for item in content if item.type == "text")`
(src/task_handler.py, lines 178-180). -/
def joinTexts (items : List ContentItem) : String :=
  String.intercalate " " (textBlocks items)

/-- What `handle_tool_calls` returns: a terminal capability's input payload
(`return tool_params`), the fallback value extracted from free text, the
implicit Python `None` when tool-use blocks exist but none is known, or the
modelling artifact `outOfScript` when the finite service script is
exhausted where the real code would make a further network call. -/
inductive EngineOutcome : Type
  | structured (payload : PyVal) : EngineOutcome
  | fallbackResult (v : PyVal) : EngineOutcome
  | noResult : EngineOutcome
  | outOfScript : EngineOutcome

/-- Result of running the engine: the returned value, the final transcript
(`self.messages`), and the ordered log of `tool.execute` calls made
(capability name, input payload). -/
structure EngineRun : Type where
  outcome : EngineOutcome
  transcript : List Turn
  executed : List (String × PyVal)

/-- Shallow embedding of `TaskHandler.handle_tool_calls`
(src/task_handler.py, lines 117-192).  The reasoning service is modelled by
a finite `script` of its future responses (one per `messages.create` call);
the free-text JSON extraction (`re.search` + `json.loads` +
summary-wrapping, lines 182-192) is modelled by the abstract `fb`.  The
first known tool-use is dispatched: a structured-output tool returns its
input payload at once; otherwise `execute` runs, the assistant turn and its
tool-result turn are appended, and the next scripted response is handled
recursively.  If no known tool-use exists, the function falls through:
Python returns `None` when a tool-use block was seen, else the fallback. -/
def handleToolCalls (tools : List ToolSpec) (fb : String → PyVal) :
    List Message → List Turn → Message → List (String × PyVal) → EngineRun
  | script, msgs, message, ex =>
    match firstKnownToolUse tools message.content with
    | some (id, t, inp) =>
      if t.isStructuredOutput then
        { outcome := EngineOutcome.structured inp, transcript := msgs, executed := ex }
      else
        let msgs' := msgs ++ [Turn.assistantTurn message.content,
          Turn.toolResultTurn id (t.run inp)]
        let ex' := ex ++ [(t.name, inp)]
        match script with
        | [] => { outcome := EngineOutcome.outOfScript, transcript := msgs', executed := ex' }
        | m :: rest => handleToolCalls tools fb rest msgs' m ex'
    | Option.none =>
      if hasToolUse message.content then
        { outcome := EngineOutcome.noResult, transcript := msgs, executed := ex }
      else
        { outcome := EngineOutcome.fallbackResult (fb (joinTexts message.content)),
          transcript := msgs, executed := ex }

/-- A strategy plugin class as the registry sees it
(src/strategies/__init__.py): `name` is the class-level name attribute that
`__init_subclass__` uses as registry key (`getattr(cls, "name",
cls.__name__)`, the type name being the default); `fetch` folds
instantiation (`cls()`) and the instance method `fetch(**input_params)`
into the observable input-output behaviour. -/
structure StrategyClass : Type where
  name : String
  fetch : PyVal → PyVal

/-- `FetchingStrategy.__init_subclass__` (src/strategies/__init__.py,
lines 24-27): `registry[key] = cls`, a dict assignment that overwrites any
previous binding of the key. -/
def registerStrategy (reg : List (String × StrategyClass))
    (cls : StrategyClass) : List (String × StrategyClass) :=
  assocInsert reg cls.name cls

/-- `FetchingStrategy.registry[for_strategy]` dict lookup. -/
def registryLookup (reg : List (String × StrategyClass)) (n : String) :
    Option StrategyClass :=
  assocLookup reg n

/-- Shallow embedding of `FetchingStrategy.get_agendas`
(src/strategies/__init__.py, lines 41-45):
`registry[for_strategy]().fetch(**input_params)`; a missing key raises
`KeyError` (modelled as `Except.error`), which is the hard lookup failure. -/
def get_agendas (reg : List (String × StrategyClass)) (for_strategy : String)
    (input_params : PyVal) : Except String PyVal :=
  match registryLookup reg for_strategy with
  | Option.none => Except.error ("KeyError: " ++ for_strategy)
  | some cls => Except.ok (cls.fetch input_params)

/-- A module successfully parsed by `libcst.parse_module`, identified by the
source text it was parsed from. -/
structure CSTModule : Type where
  source : String

/-- The fields of the strategy specification that `save_fetching_strategy`
reads (src/strategies/save.py, lines 161-214).  `parseResult` is the result
of `parse_module(fetch_result.get("code"))`: `Except.error` is the parser
exception raised at line 172. -/
structure ProposedStrategy : Type where
  strategy_name : String
  parseResult : Except String CSTModule
  schema : List (String × String)
  notes : String

/-- Shallow embedding of `save_fetching_strategy` (src/strategies/save.py,
lines 161-214).  The file path is computed first (lines 167-169); then the
proposed code is parsed (line 172) — a parse failure propagates before any
file is opened; the pure tree transformation of lines 174-210 (docstring
assembly, provenance comments, import and class-wrapping transformers,
serialisation via `.code`) is abstracted by `render`; finally the rendered
text is written to the strategy file (lines 213-214). -/
def save_fetching_strategy (render : ProposedStrategy → CSTModule → String)
    (fs : List (String × String)) (spec : ProposedStrategy) :
    Except String (List (String × String)) :=
  let file_path := "strategies/" ++ spec.strategy_name ++ ".py"
  match spec.parseResult with
  | Except.error e => Except.error e
  | Except.ok m => Except.ok (assocInsert fs file_path (render spec m))

/-! Concrete sample data used to instantiate the general theorems. -/

/-- A meeting record as stored in the fixtures: `{date, agenda}`. -/
def sampleRec : PyVal :=
  PyVal.dict [("date", PyVal.str "2025-01-07"),
    ("agenda", PyVal.str "https://example.org/agenda.pdf")]

/-- Snippet whose single function returns `None` without raising. -/
def noneReturningSnippet : PySnippet :=
  ⟨Option.none, Option.none, [Except.ok PyVal.none], ""⟩

/-- A second meeting record, structurally distinct from `sampleRec`. -/
def sampleRec2 : PyVal :=
  PyVal.dict [("date", PyVal.str "2025-02-04"),
    ("agenda", PyVal.str "https://example.org/february.pdf")]

/-- Snippet whose single function returns the expected record twice — one
extra record that duplicates an expected one. -/
def extraRecordSnippet : PySnippet :=
  ⟨Option.none, Option.none, [Except.ok (PyVal.list [sampleRec, sampleRec])], ""⟩

/-- Snippet whose single function returns the expected record plus one
extra record distinct from every expected record. -/
def newRecordSnippet : PySnippet :=
  ⟨Option.none, Option.none, [Except.ok (PyVal.list [sampleRec, sampleRec2])], ""⟩

/-- Snippet defining two functions; the first returns the expected list. -/
def twoFuncSnippet : PySnippet :=
  ⟨Option.none, Option.none,
    [Except.ok (PyVal.list [sampleRec]), Except.error "ValueError: second"], ""⟩

/-- Snippet rejected by `ast.parse`. -/
def badSyntaxSnippet : PySnippet :=
  ⟨some "invalid syntax (<unknown>, line 1)", Option.none, [], ""⟩

/-- Snippet that executes fine but defines no function. -/
def emptySnippet : PySnippet := ⟨Option.none, Option.none, [], ""⟩

/-- An active (non-terminal) capability that echoes its input. -/
def echoTool : ToolSpec := ⟨"site_scraper", false, fun v => v⟩

/-- A terminal (structured-output) capability; its `run` models the raising
`StructuredOutputTool.execute` body and must never be reached. -/
def terminalTool : ToolSpec := ⟨"all_orgs_summary", true, fun _ => PyVal.none⟩

def sampleTools : List ToolSpec := [echoTool, terminalTool]

def sampleInput : PyVal := PyVal.dict [("url", PyVal.str "https://town.example")]

/-- Service message invoking the active capability. -/
def toolUseMsg : Message :=
  ⟨[ContentItem.text "calling the scraper",
    ContentItem.toolUse "toolu_01" "site_scraper" sampleInput]⟩

/-- Service message invoking the terminal capability. -/
def terminalMsg : Message :=
  ⟨[ContentItem.toolUse "toolu_02" "all_orgs_summary" sampleInput]⟩

/-- Service message invoking only a capability absent from the tool table. -/
def unknownMsg : Message :=
  ⟨[ContentItem.toolUse "toolu_03" "mystery_tool" sampleInput]⟩

/-- Plain-text service message. -/
def textMsg : Message := ⟨[ContentItem.text "all done"]⟩

/-- A fallback model wrapping the free text as a summary payload. -/
def summaryFb : String → PyVal := fun s => PyVal.dict [("summary", PyVal.str s)]

/-- Two strategy classes registered under the same name. -/
def clsV1 : StrategyClass := ⟨"yearly_pages", fun _ => PyVal.str "v1"⟩

def clsV2 : StrategyClass := ⟨"yearly_pages", fun _ => PyVal.str "v2"⟩

/-- A proposed strategy whose source does not parse. -/
def badProposed : ProposedStrategy :=
  ⟨"embedded_html_links", Except.error "ParserSyntaxError: Syntax Error @ 1:1.",
    [("base_url", "Base URL of the town website")], "notes"⟩

/-- A trivial stand-in for the pure tree transformation. -/
def renderIdentity : ProposedStrategy → CSTModule → String := fun _ m => m.source

/-! Helper lemmas shared by the claim theorems. -/

mutual

theorem pyEqb_eq : ∀ (a b : PyVal), pyEqb a b = true → a = b
  | PyVal.none, PyVal.none, _ => rfl
  | PyVal.none, PyVal.bool _, h => by simp [pyEqb] at h
  | PyVal.none, PyVal.int _, h => by simp [pyEqb] at h
  | PyVal.none, PyVal.str _, h => by simp [pyEqb] at h
  | PyVal.none, PyVal.list _, h => by simp [pyEqb] at h
  | PyVal.none, PyVal.dict _, h => by simp [pyEqb] at h
  | PyVal.bool _, PyVal.none, h => by simp [pyEqb] at h
  | PyVal.bool a, PyVal.bool b, h => by
    simp only [pyEqb] at h
    exact congrArg PyVal.bool (eq_of_beq h)
  | PyVal.bool _, PyVal.int _, h => by simp [pyEqb] at h
  | PyVal.bool _, PyVal.str _, h => by simp [pyEqb] at h
  | PyVal.bool _, PyVal.list _, h => by simp [pyEqb] at h
  | PyVal.bool _, PyVal.dict _, h => by simp [pyEqb] at h
  | PyVal.int _, PyVal.none, h => by simp [pyEqb] at h
  | PyVal.int _, PyVal.bool _, h => by simp [pyEqb] at h
  | PyVal.int a, PyVal.int b, h => by
    simp only [pyEqb] at h
    exact congrArg PyVal.int (eq_of_beq h)
  | PyVal.int _, PyVal.str _, h => by simp [pyEqb] at h
  | PyVal.int _, PyVal.list _, h => by simp [pyEqb] at h
  | PyVal.int _, PyVal.dict _, h => by simp [pyEqb] at h
  | PyVal.str _, PyVal.none, h => by simp [pyEqb] at h
  | PyVal.str _, PyVal.bool _, h => by simp [pyEqb] at h
  | PyVal.str _, PyVal.int _, h => by simp [pyEqb] at h
  | PyVal.str a, PyVal.str b, h => by
    simp only [pyEqb] at h
    exact congrArg PyVal.str (eq_of_beq h)
  | PyVal.str _, PyVal.list _, h => by simp [pyEqb] at h
  | PyVal.str _, PyVal.dict _, h => by simp [pyEqb] at h
  | PyVal.list _, PyVal.none, h => by simp [pyEqb] at h
  | PyVal.list _, PyVal.bool _, h => by simp [pyEqb] at h
  | PyVal.list _, PyVal.int _, h => by simp [pyEqb] at h
  | PyVal.list _, PyVal.str _, h => by simp [pyEqb] at h
  | PyVal.list a, PyVal.list b, h => by
    simp only [pyEqb] at h
    exact congrArg PyVal.list (pyEqbList_eq a b h)
  | PyVal.list _, PyVal.dict _, h => by simp [pyEqb] at h
  | PyVal.dict _, PyVal.none, h => by simp [pyEqb] at h
  | PyVal.dict _, PyVal.bool _, h => by simp [pyEqb] at h
  | PyVal.dict _, PyVal.int _, h => by simp [pyEqb] at h
  | PyVal.dict _, PyVal.str _, h => by simp [pyEqb] at h
  | PyVal.dict _, PyVal.list _, h => by simp [pyEqb] at h
  | PyVal.dict a, PyVal.dict b, h => by
    simp only [pyEqb] at h
    exact congrArg PyVal.dict (pyEqbDict_eq a b h)

theorem pyEqbList_eq : ∀ (l1 l2 : List PyVal), pyEqbList l1 l2 = true → l1 = l2
  | [], [], _ => rfl
  | [], _ :: _, h => by simp [pyEqbList] at h
  | _ :: _, [], h => by simp [pyEqbList] at h
  | x :: xs, y :: ys, h => by
    simp only [pyEqbList, Bool.and_eq_true] at h
    rw [pyEqb_eq x y h.1, pyEqbList_eq xs ys h.2]

theorem pyEqbDict_eq :
    ∀ (l1 l2 : List (String × PyVal)), pyEqbDict l1 l2 = true → l1 = l2
  | [], [], _ => rfl
  | [], _ :: _, h => by simp [pyEqbDict] at h
  | _ :: _, [], h => by simp [pyEqbDict] at h
  | (k1, v1) :: xs, (k2, v2) :: ys, h => by
    simp only [pyEqbDict, Bool.and_eq_true] at h
    rw [eq_of_beq h.1.1, pyEqb_eq v1 v2 h.1.2, pyEqbDict_eq xs ys h.2]

end

theorem mem_insertSorted (x a : PyVal) (L : List PyVal) :
    x ∈ insertSorted a L ↔ x = a ∨ x ∈ L := by
  induction L with
  | nil => simp [insertSorted]
  | cons y ys ih =>
    simp only [insertSorted]
    by_cases h : pyLe a y = true
    · simp [h, List.mem_cons]
    · simp [h, List.mem_cons, ih]
      tauto

theorem mem_sortVals (x : PyVal) (L : List PyVal) :
    x ∈ sortVals L ↔ x ∈ L := by
  induction L with
  | nil => simp [sortVals]
  | cons y ys ih => simp [sortVals, mem_insertSorted, ih, List.mem_cons]

theorem mem_dedupAdj_of_mem :
    ∀ (L : List PyVal) (x : PyVal), x ∈ L → x ∈ dedupAdj L
  | [], x, h => absurd h (by simp)
  | [u], x, h => by simpa [dedupAdj] using h
  | u :: v :: t, x, h => by
    simp only [dedupAdj]
    cases hq : pyEqb u v with
    | true =>
      simp only [if_true]
      rcases List.mem_cons.mp h with rfl | h2
      · exact mem_dedupAdj_of_mem (v :: t) x
          (by rw [pyEqb_eq x v hq]; exact List.mem_cons_self _ _)
      · exact mem_dedupAdj_of_mem (v :: t) x h2
    | false =>
      simp only [Bool.false_eq_true, if_false]
      rcases List.mem_cons.mp h with rfl | h2
      · exact List.mem_cons_self _ _
      · exact List.mem_cons_of_mem _ (mem_dedupAdj_of_mem (v :: t) x h2)

theorem mem_of_mem_dedupAdj :
    ∀ (L : List PyVal) (x : PyVal), x ∈ dedupAdj L → x ∈ L
  | [], x, h => by simp [dedupAdj] at h
  | [u], x, h => by simpa [dedupAdj] using h
  | u :: v :: t, x, h => by
    simp only [dedupAdj] at h
    cases hq : pyEqb u v with
    | true =>
      rw [hq] at h
      simp only [if_true] at h
      exact List.mem_cons_of_mem _ (mem_of_mem_dedupAdj (v :: t) x h)
    | false =>
      rw [hq] at h
      simp only [Bool.false_eq_true, if_false] at h
      rcases List.mem_cons.mp h with rfl | h2
      · exact List.mem_cons_self _ _
      · exact List.mem_cons_of_mem _ (mem_of_mem_dedupAdj (v :: t) x h2)

theorem mem_pyNormalizeList_of_mem :
    ∀ (L : List PyVal) (r : PyVal), r ∈ L → pyNormalize r ∈ pyNormalizeList L
  | [], r, h => absurd h (by simp)
  | a :: as, r, h => by
    simp only [pyNormalizeList]
    rcases List.mem_cons.mp h with rfl | h2
    · exact List.mem_cons_self _ _
    · exact List.mem_cons_of_mem _ (mem_pyNormalizeList_of_mem as r h2)

theorem exists_of_mem_pyNormalizeList :
    ∀ (L : List PyVal) (y : PyVal), y ∈ pyNormalizeList L →
      ∃ x ∈ L, y = pyNormalize x
  | [], y, h => absurd h (by simp [pyNormalizeList])
  | a :: as, y, h => by
    simp only [pyNormalizeList] at h
    rcases List.mem_cons.mp h with rfl | h2
    · exact ⟨a, List.mem_cons_self _ _, rfl⟩
    · obtain ⟨x, hx, he⟩ := exists_of_mem_pyNormalizeList as y h2
      exact ⟨x, List.mem_cons_of_mem _ hx, he⟩

theorem pyCmpList_eq_pointwise :
    ∀ (l1 l2 : List PyVal), pyCmpList l1 l2 = Ordering.eq →
      ∀ x ∈ l1, ∃ y ∈ l2, pyCmp x y = Ordering.eq
  | [], _, _, x, hx => absurd hx (by simp)
  | _ :: _, [], h, _, _ => by simp [pyCmpList] at h
  | a :: as, b :: bs, h, x, hx => by
    simp only [pyCmpList] at h
    cases hc : pyCmp a b with
    | eq =>
      rw [hc] at h
      rcases List.mem_cons.mp hx with rfl | hx2
      · exact ⟨b, List.mem_cons_self _ _, hc⟩
      · obtain ⟨y, hy, hxy⟩ := pyCmpList_eq_pointwise as bs h x hx2
        exact ⟨y, List.mem_cons_of_mem _ hy, hxy⟩
    | lt => rw [hc] at h; exact absurd h (by simp)
    | gt => rw [hc] at h; exact absurd h (by simp)

theorem deepDiff_extra_distinct (r : PyVal) (ys xs : List PyVal)
    (hr : r ∈ ys)
    (hd : ∀ x ∈ xs, ordIsEq (pyCmp (pyNormalize r) (pyNormalize x)) = false) :
    deepDiffIsEmpty (PyVal.list ys) (PyVal.list xs) = false := by
  cases hdd : deepDiffIsEmpty (PyVal.list ys) (PyVal.list xs) with
  | false => rfl
  | true =>
    exfalso
    simp only [deepDiffIsEmpty, pyNormalize, pyCmp] at hdd
    have heq : pyCmpList (dedupAdj (sortVals (pyNormalizeList ys)))
        (dedupAdj (sortVals (pyNormalizeList xs))) = Ordering.eq := by
      cases hc : pyCmpList (dedupAdj (sortVals (pyNormalizeList ys)))
          (dedupAdj (sortVals (pyNormalizeList xs))) with
      | eq => rfl
      | lt => rw [hc] at hdd; simp [ordIsEq] at hdd
      | gt => rw [hc] at hdd; simp [ordIsEq] at hdd
    have h1 : pyNormalize r ∈ dedupAdj (sortVals (pyNormalizeList ys)) :=
      mem_dedupAdj_of_mem _ _
        ((mem_sortVals _ _).mpr (mem_pyNormalizeList_of_mem ys r hr))
    obtain ⟨y, hy, hcy⟩ := pyCmpList_eq_pointwise _ _ heq _ h1
    have h2 : y ∈ pyNormalizeList xs :=
      (mem_sortVals _ _).mp (mem_of_mem_dedupAdj _ _ hy)
    obtain ⟨x, hx, hyx⟩ := exists_of_mem_pyNormalizeList xs y h2
    have hfalse := hd x hx
    rw [← hyx, hcy] at hfalse
    simp [ordIsEq] at hfalse

theorem assocLookup_insert_self {α : Type} (l : List (String × α)) (k : String)
    (v : α) : assocLookup (assocInsert l k v) k = some v := by
  induction l with
  | nil => simp [assocInsert, assocLookup]
  | cons p rest ih =>
    obtain ⟨k', v'⟩ := p
    simp only [assocInsert]
    by_cases h : k' = k
    · simp [h, assocLookup]
    · simp [h, assocLookup, ih]

theorem lookupTool_name (tools : List ToolSpec) (n : String) (t : ToolSpec)
    (h : lookupTool tools n = some t) : t.name = n := by
  have := List.find?_some h
  simpa using this

theorem firstKnownToolUse_lookup (tools : List ToolSpec)
    (items : List ContentItem) (id : String) (t : ToolSpec) (inp : PyVal)
    (h : firstKnownToolUse tools items = some (id, t, inp)) :
    lookupTool tools t.name = some t := by
  induction items with
  | nil => simp [firstKnownToolUse] at h
  | cons item rest ih =>
    cases item with
    | text s => exact ih (by simpa [firstKnownToolUse] using h)
    | toolUse id' n inp' =>
      simp only [firstKnownToolUse] at h
      cases hl : lookupTool tools n with
      | none => rw [hl] at h; exact ih h
      | some t' =>
        rw [hl] at h
        simp only [Option.some.injEq, Prod.mk.injEq] at h
        obtain ⟨h1, h2, h3⟩ := h
        rw [h2] at hl
        rw [lookupTool_name tools n t hl]
        exact hl

theorem firstKnownToolUse_mem (tools : List ToolSpec)
    (items : List ContentItem) (id : String) (t : ToolSpec) (inp : PyVal)
    (h : firstKnownToolUse tools items = some (id, t, inp)) :
    ContentItem.toolUse id t.name inp ∈ items := by
  induction items with
  | nil => simp [firstKnownToolUse] at h
  | cons item rest ih =>
    cases item with
    | text s =>
      exact List.mem_cons_of_mem _ (ih (by simpa [firstKnownToolUse] using h))
    | toolUse id' n inp' =>
      simp only [firstKnownToolUse] at h
      cases hl : lookupTool tools n with
      | none => rw [hl] at h; exact List.mem_cons_of_mem _ (ih h)
      | some t' =>
        rw [hl] at h
        simp only [Option.some.injEq, Prod.mk.injEq] at h
        obtain ⟨h1, h2, h3⟩ := h
        rw [h2] at hl
        have hn := lookupTool_name tools n t hl
        rw [hn, ← h1, ← h3]
        exact List.mem_cons_self _ _

theorem handleToolCalls_structured (tools : List ToolSpec) (fb : String → PyVal)
    (script : List Message) (msgs : List Turn) (message : Message)
    (ex : List (String × PyVal)) (id : String) (t : ToolSpec) (inp : PyVal)
    (hf : firstKnownToolUse tools message.content = some (id, t, inp))
    (hs : t.isStructuredOutput = true) :
    handleToolCalls tools fb script msgs message ex =
      { outcome := EngineOutcome.structured inp, transcript := msgs,
        executed := ex } := by
  rw [handleToolCalls, hf]
  simp [hs]

theorem handleToolCalls_dispatch_cons (tools : List ToolSpec)
    (fb : String → PyVal) (m : Message) (rest : List Message) (msgs : List Turn)
    (message : Message) (ex : List (String × PyVal)) (id : String)
    (t : ToolSpec) (inp : PyVal)
    (hf : firstKnownToolUse tools message.content = some (id, t, inp))
    (hs : t.isStructuredOutput = false) :
    handleToolCalls tools fb (m :: rest) msgs message ex =
      handleToolCalls tools fb rest
        (msgs ++ [Turn.assistantTurn message.content,
          Turn.toolResultTurn id (t.run inp)]) m (ex ++ [(t.name, inp)]) := by
  rw [handleToolCalls, hf]
  simp [hs]

theorem handleToolCalls_dispatch_nil (tools : List ToolSpec)
    (fb : String → PyVal) (msgs : List Turn) (message : Message)
    (ex : List (String × PyVal)) (id : String) (t : ToolSpec) (inp : PyVal)
    (hf : firstKnownToolUse tools message.content = some (id, t, inp))
    (hs : t.isStructuredOutput = false) :
    handleToolCalls tools fb [] msgs message ex =
      { outcome := EngineOutcome.outOfScript,
        transcript := msgs ++ [Turn.assistantTurn message.content,
          Turn.toolResultTurn id (t.run inp)],
        executed := ex ++ [(t.name, inp)] } := by
  rw [handleToolCalls, hf]
  simp [hs]

theorem handleToolCalls_noKnown (tools : List ToolSpec) (fb : String → PyVal)
    (script : List Message) (msgs : List Turn) (message : Message)
    (ex : List (String × PyVal))
    (hf : firstKnownToolUse tools message.content = Option.none)
    (ht : hasToolUse message.content = true) :
    handleToolCalls tools fb script msgs message ex =
      { outcome := EngineOutcome.noResult, transcript := msgs,
        executed := ex } := by
  rw [handleToolCalls, hf]
  simp [ht]

theorem handleToolCalls_executed_sound (tools : List ToolSpec)
    (fb : String → PyVal) :
    ∀ (script : List Message) (msgs : List Turn) (message : Message)
      (ex : List (String × PyVal)),
      (∀ p ∈ ex, ∃ t, lookupTool tools p.1 = some t ∧
        t.isStructuredOutput = false) →
      ∀ p ∈ (handleToolCalls tools fb script msgs message ex).executed,
        ∃ t, lookupTool tools p.1 = some t ∧ t.isStructuredOutput = false := by
  intro script
  induction script with
  | nil =>
    intro msgs message ex hex p hp
    cases hf : firstKnownToolUse tools message.content with
    | none =>
      by_cases ht : hasToolUse message.content
      · rw [handleToolCalls_noKnown tools fb [] msgs message ex hf ht] at hp
        exact hex p hp
      · rw [handleToolCalls, hf] at hp
        simp [ht] at hp
        exact hex p hp
    | some r =>
      obtain ⟨id, t, inp⟩ := r
      by_cases hs : t.isStructuredOutput
      · rw [handleToolCalls_structured tools fb [] msgs message ex id t inp hf hs] at hp
        exact hex p hp
      · rw [handleToolCalls_dispatch_nil tools fb msgs message ex id t inp hf
          (by simpa using hs)] at hp
        simp only [List.mem_append, List.mem_singleton] at hp
        rcases hp with hp | hp
        · exact hex p hp
        · subst hp
          exact ⟨t, firstKnownToolUse_lookup tools message.content id t inp hf,
            by simpa using hs⟩
  | cons m rest ih =>
    intro msgs message ex hex p hp
    cases hf : firstKnownToolUse tools message.content with
    | none =>
      by_cases ht : hasToolUse message.content
      · rw [handleToolCalls_noKnown tools fb (m :: rest) msgs message ex hf ht] at hp
        exact hex p hp
      · rw [handleToolCalls, hf] at hp
        simp [ht] at hp
        exact hex p hp
    | some r =>
      obtain ⟨id, t, inp⟩ := r
      by_cases hs : t.isStructuredOutput
      · rw [handleToolCalls_structured tools fb (m :: rest) msgs message ex id t inp hf hs] at hp
        exact hex p hp
      · rw [handleToolCalls_dispatch_cons tools fb m rest msgs message ex id t inp hf
          (by simpa using hs)] at hp
        refine ih _ _ _ ?_ p hp
        intro q hq
        simp only [List.mem_append, List.mem_singleton] at hq
        rcases hq with hq | hq
        · exact hex q hq
        · subst hq
          exact ⟨t, firstKnownToolUse_lookup tools message.content id t inp hf,
            by simpa using hs⟩

theorem firstKnownToolUse_none_of_unknown (tools : List ToolSpec)
    (items : List ContentItem)
    (h : ∀ id n inp, ContentItem.toolUse id n inp ∈ items →
      lookupTool tools n = Option.none) :
    firstKnownToolUse tools items = Option.none := by
  induction items with
  | nil => rfl
  | cons item rest ih =>
    cases item with
    | text s =>
      simp only [firstKnownToolUse]
      exact ih (fun id n inp hm => h id n inp (List.mem_cons_of_mem _ hm))
    | toolUse id n inp =>
      simp only [firstKnownToolUse]
      rw [h id n inp (List.mem_cons_self _ _)]
      exact ih (fun id' n' inp' hm => h id' n' inp' (List.mem_cons_of_mem _ hm))

theorem storePath_ne_testFixturePath (c : String) :
    storePath c ≠ testFixturePath c := by
  intro h
  have hlen := congrArg String.length h
  rw [storePath, testFixturePath] at hlen
  simp only [String.length_append] at hlen
  have e1 : ("strategies/expected/" : String).length = 20 := rfl
  have e2 : ("strategies/fixtures/expected/" : String).length = 29 := rfl
  rw [e1, e2] at hlen
  omega

/-! Claim theorems. -/

/-- C2 (code bug): the fixture round-trip is broken in the code.
`StoreExpectedAgendas.execute` writes the fixture under
`strategies/expected/` while `TestProposedStrategyTool.execute` reads it
from `strategies/fixtures/expected/`; these paths differ for every
committee name, so after storing a committee's meetings into an empty
directory tree the test capability raises (fixture file not found) instead
of reading back the stored list as the expected output. -/
theorem fixture_roundtrip_broken :
    (∀ committee, storePath committee ≠ testFixturePath committee) ∧
    (∀ committee meetings s,
      testProposedStrategyExecute (storeExpectedAgendas [] committee meetings)
        committee s = Except.error unboundLocalMsg) := by
  constructor
  · exact storePath_ne_testFixturePath
  · intro c m s
    have hne := storePath_ne_testFixturePath c
    simp [testProposedStrategyExecute, storeExpectedAgendas, assocInsert,
      assocLookup, hne]

theorem fixture_roundtrip_broken_witness :
    testProposedStrategyExecute
      (storeExpectedAgendas [] "Planning Commission" (PyVal.list [sampleRec]))
      "Planning Commission" emptySnippet = Except.error unboundLocalMsg :=
  fixture_roundtrip_broken.2 "Planning Commission" (PyVal.list [sampleRec])
    emptySnippet

/-- C5: for code that fails to parse, `run_test_case` returns immediately
with `passed = false`, an exception message beginning with
`SyntaxError` (it is exactly the string `SyntaxError: ` followed by the
parse error), an empty diff, empty logs and `actual_output` `None`; the
result is fully determined by the parse error alone — the snippet's
execution behaviour (`execError`, `funcs`, `logs`) does not enter, so no
part of the code is executed. -/
theorem run_test_case_syntax_error (s : PySnippet) (expected : PyVal)
    (e : String) (hp : s.parseError = some e) :
    runTestCase s expected =
      { passed := false, logs := "", exception := some ("SyntaxError: " ++ e),
        diffEmpty := true, actual_output := PyVal.none } := by
  simp [runTestCase, hp]

theorem run_test_case_syntax_error_witness :
    runTestCase badSyntaxSnippet (PyVal.list [sampleRec]) =
      { passed := false, logs := "",
        exception := some ("SyntaxError: " ++ "invalid syntax (<unknown>, line 1)"),
        diffEmpty := true, actual_output := PyVal.none } :=
  run_test_case_syntax_error badSyntaxSnippet (PyVal.list [sampleRec])
    "invalid syntax (<unknown>, line 1)" rfl

/-- C10: `TestProposedStrategyTool.execute` raises before the proposed code
is parsed or executed whenever the committee's fixture file is missing
(`expected_output` is left unbound, so the truthiness check raises
`UnboundLocalError`) or exists but holds an empty list (falsy, so the
explicit `Exception` is raised); in both cases the error is independent of
the proposed snippet, so an empty expected fixture can never reach the
trivially-passing comparison through this capability. -/
theorem test_tool_empty_fixture_guard (fs : List (String × PyVal))
    (committee : String) (s : PySnippet) :
    (assocLookup fs (testFixturePath committee) = Option.none →
      testProposedStrategyExecute fs committee s =
        Except.error unboundLocalMsg) ∧
    (assocLookup fs (testFixturePath committee) = some (PyVal.list []) →
      testProposedStrategyExecute fs committee s =
        Except.error (noExpectedMsg committee)) := by
  constructor
  · intro h
    simp [testProposedStrategyExecute, h]
  · intro h
    simp [testProposedStrategyExecute, h, isTruthy]

theorem test_tool_empty_fixture_guard_witness :
    testProposedStrategyExecute [(testFixturePath "Library Board", PyVal.list [])]
      "Library Board" emptySnippet = Except.error (noExpectedMsg "Library Board") :=
  (test_tool_empty_fixture_guard
    [(testFixturePath "Library Board", PyVal.list [])] "Library Board"
    emptySnippet).2 (by simp [assocLookup])

/-- C7: when the proposed source does not parse, `save_fetching_strategy`
propagates the parse error raised at the `parse_module` call, which
precedes the `open(file_path, "w")`: the result is that error for any prior
state of the strategies directory and for any tree transformation, and no
write to the directory occurs. -/
theorem save_strategy_parse_error_no_write
    (render : ProposedStrategy → CSTModule → String)
    (fs : List (String × String)) (spec : ProposedStrategy) (e : String)
    (hp : spec.parseResult = Except.error e) :
    save_fetching_strategy render fs spec = Except.error e := by
  simp [save_fetching_strategy, hp]

theorem save_strategy_parse_error_no_write_witness :
    save_fetching_strategy renderIdentity [] badProposed =
      Except.error "ParserSyntaxError: Syntax Error @ 1:1." :=
  save_strategy_parse_error_no_write renderIdentity [] badProposed
    "ParserSyntaxError: Syntax Error @ 1:1." rfl

/-- C1 counterexample: a syntactically valid snippet whose single function
returns `None` without raising, run against a non-empty expected fixture.
The code returns `passed = true` with an empty diff and no captured
exception, although the structural order-insensitive diff between the
produced output (`None`) and the expected result is non-empty — refuting
the claim that `passed` is true exactly when that diff is empty and no
exception was captured. -/
theorem run_test_case_none_output_counterexample :
    (runTestCase noneReturningSnippet (PyVal.list [sampleRec])).passed = true ∧
    (runTestCase noneReturningSnippet (PyVal.list [sampleRec])).exception =
      Option.none ∧
    (runTestCase noneReturningSnippet (PyVal.list [sampleRec])).diffEmpty = true ∧
    deepDiffIsEmpty PyVal.none (PyVal.list [sampleRec]) = false :=
  ⟨rfl, rfl, rfl, rfl⟩

/-- C1 (amended): `run_test_case` computes the order-insensitive structural
diff only when the produced output is not `None`; `passed` is true exactly
when no exception was captured and, in addition, the output is `None` or
diffs empty against the expected result.  The diff — `DeepDiff` with
`ignore_order=True` and the default `report_repetition=False` — ignores
repetition counts as well as order, so (second conjunct) produced list
output containing a record structurally distinct from every expected record
yields `passed = false` with a non-empty diff, while (third conjunct) an
extra record that merely duplicates an expected one yields an empty diff
and passes. -/
theorem run_test_case_pass_semantics (s : PySnippet) (expected : PyVal) :
    ((runTestCase s expected).passed = true ↔
      ((runTestCase s expected).exception = Option.none ∧
        ((runTestCase s expected).actual_output = PyVal.none ∨
          deepDiffIsEmpty (runTestCase s expected).actual_output expected =
            true))) ∧
    (∀ (ys xs : List PyVal) (r : PyVal),
      (runTestCase s (PyVal.list xs)).actual_output = PyVal.list ys →
      r ∈ ys →
      (∀ x ∈ xs, ordIsEq (pyCmp (pyNormalize r) (pyNormalize x)) = false) →
      (runTestCase s (PyVal.list xs)).passed = false ∧
      (runTestCase s (PyVal.list xs)).diffEmpty = false) ∧
    ((runTestCase extraRecordSnippet (PyVal.list [sampleRec])).passed = true ∧
      (runTestCase extraRecordSnippet (PyVal.list [sampleRec])).diffEmpty = true ∧
      deepDiffIsEmpty (PyVal.list [sampleRec, sampleRec])
        (PyVal.list [sampleRec]) = true) := by
  refine ⟨?_, ?_, rfl, rfl, rfl⟩
  · cases hp : s.parseError with
    | some e => simp [runTestCase, hp]
    | none =>
      cases he : s.execError with
      | some tr => simp [runTestCase, hp, he]
      | none =>
        cases hfl : s.funcs with
        | nil => simp [runTestCase, hp, he, hfl]
        | cons f rest =>
          cases f with
          | error tr => simp [runTestCase, hp, he, hfl]
          | ok v =>
            cases v with
            | none => simp [runTestCase, hp, he, hfl]
            | bool b => simp [runTestCase, hp, he, hfl]
            | int n => simp [runTestCase, hp, he, hfl]
            | str t => simp [runTestCase, hp, he, hfl]
            | list xs => simp [runTestCase, hp, he, hfl]
            | dict kvs => simp [runTestCase, hp, he, hfl]
  · intro ys xs r hout hr hdist
    cases hp : s.parseError with
    | some e => rw [run_test_case_syntax_error s (PyVal.list xs) e hp] at hout; simp at hout
    | none =>
      cases he : s.execError with
      | some tr => simp [runTestCase, hp, he] at hout
      | none =>
        cases hfl : s.funcs with
        | nil => simp [runTestCase, hp, he, hfl] at hout
        | cons f rest =>
          cases f with
          | error tr => simp [runTestCase, hp, he, hfl] at hout
          | ok v =>
            have hv : v = PyVal.list ys := by
              simpa [runTestCase, hp, he, hfl] using hout
            subst hv
            have hd : deepDiffIsEmpty (PyVal.list ys) (PyVal.list xs) = false :=
              deepDiff_extra_distinct r ys xs hr hdist
            constructor
            · simp [runTestCase, hp, he, hfl, hd]
            · simp [runTestCase, hp, he, hfl, hd]

theorem run_test_case_pass_semantics_witness :
    (runTestCase newRecordSnippet (PyVal.list [sampleRec])).passed = false :=
  ((run_test_case_pass_semantics newRecordSnippet (PyVal.list [sampleRec])).2.1
    [sampleRec, sampleRec2] [sampleRec] sampleRec2 rfl
    (List.mem_cons_of_mem sampleRec (List.mem_cons_self sampleRec2 []))
    (by
      intro x hx
      rw [List.mem_singleton] at hx
      subst hx
      rfl)).1

/-- C4 counterexample: a namespace defining two functions is not treated as
a 'no callable found' runtime error — the harness silently invokes the
first function and here returns `passed = true` with no captured exception,
refuting the claim that more than one function yields `passed = false` with
a captured exception. -/
theorem run_test_case_two_functions_counterexample :
    twoFuncSnippet.funcs.length = 2 ∧
    (runTestCase twoFuncSnippet (PyVal.list [sampleRec])).passed = true ∧
    (runTestCase twoFuncSnippet (PyVal.list [sampleRec])).exception =
      Option.none :=
  ⟨rfl, rfl, rfl⟩

/-- C4 (amended): with zero functions defined in the executed namespace the
harness captures the 'No function found in code snippet' runtime error and
returns `passed = false`; with one or more functions it invokes the first
function in namespace order, and the captured exception and produced output
are exactly those of that first call — multiple functions are not an
error. -/
theorem run_test_case_callable_lookup (s : PySnippet) (expected : PyVal)
    (hp : s.parseError = Option.none) (he : s.execError = Option.none) :
    (s.funcs = [] →
      runTestCase s expected =
        { passed := false, logs := s.logs, exception := some noFunctionMsg,
          diffEmpty := true, actual_output := PyVal.none }) ∧
    (∀ f rest, s.funcs = f :: rest →
      (runTestCase s expected).exception =
        (match f with
          | Except.ok _ => Option.none
          | Except.error tr => some tr) ∧
      (runTestCase s expected).actual_output =
        (match f with
          | Except.ok v => v
          | Except.error _ => PyVal.none)) := by
  constructor
  · intro hf
    simp [runTestCase, hp, he, hf]
  · intro f rest hf
    cases f with
    | ok v => simp [runTestCase, hp, he, hf]
    | error tr => simp [runTestCase, hp, he, hf]

theorem run_test_case_callable_lookup_witness :
    runTestCase emptySnippet (PyVal.list [sampleRec]) =
      { passed := false, logs := "", exception := some noFunctionMsg,
        diffEmpty := true, actual_output := PyVal.none } :=
  (run_test_case_callable_lookup emptySnippet (PyVal.list [sampleRec])
    rfl rfl).1 rfl

/-- C3: the orchestration engine never calls a terminal capability's
execution routine.  First conjunct: in any engine run, every entry of the
execute-call log names a capability that is present in the tool table and
is not structured-output — so the raising `StructuredOutputTool.execute`
body is unreachable through the engine.  Second conjunct: when the first
known tool-use of the service message targets a structured-output
capability, the engine returns that invocation's input payload immediately,
appending no turn and executing nothing. -/
theorem engine_never_executes_terminal (tools : List ToolSpec)
    (fb : String → PyVal) (script : List Message) (msgs : List Turn)
    (message : Message) :
    (∀ p ∈ (handleToolCalls tools fb script msgs message []).executed,
      ∃ t, lookupTool tools p.1 = some t ∧ t.isStructuredOutput = false) ∧
    (∀ id t inp,
      firstKnownToolUse tools message.content = some (id, t, inp) →
      t.isStructuredOutput = true →
      handleToolCalls tools fb script msgs message [] =
        { outcome := EngineOutcome.structured inp, transcript := msgs,
          executed := [] }) := by
  constructor
  · exact handleToolCalls_executed_sound tools fb script msgs message []
      (by intro p hp; simp at hp)
  · intro id t inp hf hs
    exact handleToolCalls_structured tools fb script msgs message [] id t inp hf hs

theorem engine_never_executes_terminal_witness :
    handleToolCalls sampleTools summaryFb [] [] terminalMsg [] =
      { outcome := EngineOutcome.structured sampleInput, transcript := [],
        executed := [] } :=
  (engine_never_executes_terminal sampleTools summaryFb [] [] terminalMsg).2
    "toolu_02" terminalTool sampleInput rfl rfl

/-- C8: handling a known, non-terminal invocation appends exactly two turns
to the transcript before the service is re-invoked on the next response:
the assistant turn replaying the service content — which contains the
triggering tool-use block — immediately followed by the user turn carrying
the tool result whose `tool_use_id` equals the triggering invocation's call
id. -/
theorem tool_dispatch_appends_turn_pair (tools : List ToolSpec)
    (fb : String → PyVal) (m : Message) (rest : List Message)
    (msgs : List Turn) (message : Message) (ex : List (String × PyVal))
    (id : String) (t : ToolSpec) (inp : PyVal)
    (hf : firstKnownToolUse tools message.content = some (id, t, inp))
    (hs : t.isStructuredOutput = false) :
    (handleToolCalls tools fb (m :: rest) msgs message ex =
      handleToolCalls tools fb rest
        (msgs ++ [Turn.assistantTurn message.content,
          Turn.toolResultTurn id (t.run inp)]) m (ex ++ [(t.name, inp)])) ∧
    ContentItem.toolUse id t.name inp ∈ message.content :=
  ⟨handleToolCalls_dispatch_cons tools fb m rest msgs message ex id t inp hf hs,
    firstKnownToolUse_mem tools message.content id t inp hf⟩

theorem tool_dispatch_appends_turn_pair_witness :
    (handleToolCalls sampleTools summaryFb [textMsg] [] toolUseMsg [] =
      handleToolCalls sampleTools summaryFb []
        ([] ++ [Turn.assistantTurn toolUseMsg.content,
          Turn.toolResultTurn "toolu_01" (echoTool.run sampleInput)]) textMsg
        ([] ++ [(echoTool.name, sampleInput)])) ∧
    ContentItem.toolUse "toolu_01" echoTool.name sampleInput ∈
      toolUseMsg.content :=
  tool_dispatch_appends_turn_pair sampleTools summaryFb textMsg [] []
    toolUseMsg [] "toolu_01" echoTool sampleInput rfl rfl

/-- C9: when the service message contains tool-use blocks but every one of
them names a capability absent from the engine's tool table, the dispatch
loop completes with `tool_call_found` set, so `handle_tool_calls` skips the
free-text fallback and returns Python `None`: no tool is executed, no turn
is appended to the transcript, and neither an error nor a fallback summary
payload is produced. -/
theorem unknown_tools_yield_none (tools : List ToolSpec) (fb : String → PyVal)
    (script : List Message) (msgs : List Turn) (message : Message)
    (ex : List (String × PyVal))
    (ht : hasToolUse message.content = true)
    (hu : ∀ id n inp, ContentItem.toolUse id n inp ∈ message.content →
      lookupTool tools n = Option.none) :
    handleToolCalls tools fb script msgs message ex =
      { outcome := EngineOutcome.noResult, transcript := msgs,
        executed := ex } :=
  handleToolCalls_noKnown tools fb script msgs message ex
    (firstKnownToolUse_none_of_unknown tools message.content hu) ht

theorem unknown_tools_yield_none_witness :
    handleToolCalls sampleTools summaryFb [] [] unknownMsg [] =
      { outcome := EngineOutcome.noResult, transcript := [], executed := [] } :=
  unknown_tools_yield_none sampleTools summaryFb [] [] unknownMsg [] rfl
    (by
      intro id n inp hm
      simp [unknownMsg] at hm
      obtain ⟨h1, h2, h3⟩ := hm
      subst h2
      rfl)

/-- C6: the strategy registry is a dict keyed by the class-level name
attribute, so registering two classes in sequence under the same name
leaves the most recently registered class resolvable (last write wins), and
`get_agendas` dispatches to that latest implementation by instantiating it
and invoking `fetch` with the parameters unpacked as keyword arguments; a
name with no registry entry is a hard `KeyError` lookup failure. -/
theorem registry_last_write_wins (reg : List (String × StrategyClass))
    (c1 c2 : StrategyClass) (params : PyVal) :
    (c1.name = c2.name →
      registryLookup (registerStrategy (registerStrategy reg c1) c2) c1.name =
        some c2 ∧
      get_agendas (registerStrategy (registerStrategy reg c1) c2) c1.name
        params = Except.ok (c2.fetch params)) ∧
    (∀ n, registryLookup reg n = Option.none →
      get_agendas reg n params = Except.error ("KeyError: " ++ n)) := by
  constructor
  · intro h
    have hl : registryLookup (registerStrategy (registerStrategy reg c1) c2)
        c1.name = some c2 := by
      unfold registryLookup registerStrategy
      rw [h]
      exact assocLookup_insert_self _ _ _
    exact ⟨hl, by simp [get_agendas, hl]⟩
  · intro n hn
    simp [get_agendas, hn]

theorem registry_last_write_wins_witness :
    get_agendas (registerStrategy (registerStrategy [] clsV1) clsV2)
      "yearly_pages" (PyVal.dict []) = Except.ok (PyVal.str "v2") := by
  have h := (registry_last_write_wins [] clsV1 clsV2 (PyVal.dict [])).1 rfl
  exact h.2
